import Mathlib

/-!
Verification of the containerd Docker resolver core
(`core/remotes/docker/resolver.go`).

The Go code is shallowly embedded: pure helpers become Lean functions,
the network is an explicit oracle (`ResolveEnv`), and the stateful
`Resolve` loop becomes structural recursion over the ordered list of
(path, host) attempt pairs, threading the loop-carried `dgst` variable
and the recorded `(firstErrPriority, firstErr)` pair exactly as the
source does.
-/

/-! ## Constants (resolver.go and the containerd `images` media type table) -/

/-- MaxManifestSize from resolver.go: `MaxManifestSize int64 = 4 * 1048 * 1048`. -/
def MaxManifestSize : Int := 4 * 1048 * 1048

/-- Docker schema 1 manifest media type (`images.MediaTypeDockerSchema1Manifest`). -/
def MediaTypeDockerSchema1Manifest : String :=
  "application/vnd.docker.distribution.manifest.v1+prettyjws"

/-- Docker schema 2 manifest media type (`images.MediaTypeDockerSchema2Manifest`). -/
def MediaTypeDockerSchema2Manifest : String :=
  "application/vnd.docker.distribution.manifest.v2+json"

/-- OCI image manifest media type (`ocispec.MediaTypeImageManifest`). -/
def MediaTypeImageManifest : String :=
  "application/vnd.oci.image.manifest.v1+json"

/-! ## Data model -/

/-- An HTTP response as far as the resolver consults it: status code,
`Content-Length` (`-1` for unknown), `Content-Type`, the
`Docker-Content-Digest` header (`""` for absent) and the body bytes. -/
structure Response where
  statusCode : Nat
  contentLength : Int
  contentType : String
  dockerContentDigest : String
  body : List Nat
deriving DecidableEq

/-- Result of `Authorizer.AddResponses`: success, `ErrNotImplemented`,
or any other error. -/
inductive AddResponsesResult where
  | ok
  | notImplemented
  | failed
deriving DecidableEq

/-- The Authorizer capability, reduced to the behaviour the retry engine
observes (`AddResponses`); `Authorize` only mutates headers and is
absorbed into the network oracle. -/
structure Authorizer where
  addResponses : List Response → AddResponsesResult

/-- A registry host configuration. Capabilities are the Pull/Resolve
flags the `Resolve` path consults. `isProxy` is the predicate described
in the spec (true when the host serves a foreign namespace via the
`ns=` query parameter); its implementation lives outside the embedded
source file, so it is kept as configuration. -/
structure RegistryHost where
  host : String
  scheme : String
  hostPath : String
  capPull : Bool
  capResolve : Bool
  authorizer : Option Authorizer
  isProxy : String → Bool

/-- The mutable request builder: method, path (including query) and the
bound host. -/
structure Request where
  method : String
  path : String
  host : RegistryHost

/-- Output descriptor `{digest, media_type, size}`. -/
structure Descriptor where
  digest : String
  mediaType : String
  size : Int
deriving DecidableEq

/-- Errors produced by `Resolve`, structured by their source-code
construction site. -/
inductive ResolveErr where
  | objectRequired
  | invalidDigest (dgst : String)
  | noResolveHosts
  | requestError (pathIdx hostIdx : Nat)
  | notFound (ref : String)
  | unexpectedStatus (status : Nat)
  | invalidDigestHeader (hdr : String)
  | getRequestFailed (pathIdx hostIdx : Nat)
  | schema1NotSupported
  | sizeExceeded (size : Int) (ref : String)
deriving DecidableEq

/-- The user-facing message of each error, following the `fmt.Errorf`
format strings in the source (with `errdefs` sentinel texts). -/
def errMessage : ResolveErr → String
  | .objectRequired => "object required"
  | .invalidDigest d => d ++ ": invalid digest"
  | .noResolveHosts => "no resolve hosts: not found"
  | .requestError _ _ => "failed to do request"
  | .notFound ref => ref ++ ": not found"
  | .unexpectedStatus s => "unexpected status from HEAD request: " ++ toString s
  | .invalidDigestHeader h => "\x22" ++ h ++ "\x22 in header not a valid digest"
  | .getRequestFailed _ _ => "failed to do request"
  | .schema1NotSupported =>
      "not implemented: media type \x22application/vnd.docker.distribution.manifest.v1+prettyjws\x22 is no longer supported since containerd v2.0, please rebuild the image as \x22application/vnd.docker.distribution.manifest.v2+json\x22 or \x22application/vnd.oci.image.manifest.v1+json\x22"
  | .sizeExceeded size ref =>
      "rejecting " ++ toString size ++ " byte manifest for " ++ ref ++ ": not found"

/-! ## Small string helpers (Go `strings` package behaviour) -/

/-- Boolean infix test on lists, mirroring `strings.Contains` on the
character level. -/
def listIsInfix (pat : List Char) : List Char → Bool
  | [] => pat.isEmpty
  | c :: t => pat.isPrefixOf (c :: t) || listIsInfix pat t

/-- Go `strings.Contains s pat`. -/
def containsSubstr (s pat : String) : Bool :=
  listIsInfix pat.toList s.toList

/-- Go `s[:n]` (byte slicing; identical to character slicing on the
ASCII strings the resolver manipulates). -/
def strTake (s : String) (n : Nat) : String :=
  ⟨s.toList.take n⟩

/-- Go `s[n:]` (byte slicing; identical to character slicing on the
ASCII strings the resolver manipulates). -/
def strDrop (s : String) (n : Nat) : String :=
  ⟨s.toList.drop n⟩

/-! ## getManifestMediaType (resolver.go lines 208-221) -/

/-- getManifestMediaType: strip parameters from `Content-Type` (prefix
before the first `;`, as `strings.IndexByte` finds it) and normalize
`text/plain` to the schema 1 manifest media type. -/
def getManifestMediaType (resp : Response) : String :=
  let contentType : String := ⟨resp.contentType.toList.takeWhile (fun c => c ≠ ';')⟩
  if contentType = "text/plain" then MediaTypeDockerSchema1Manifest
  else contentType

/-! ## Reference spec -/

/-- A parsed reference: the original ref string and its object
(tag or `@digest`). Parsing itself (`reference.Parse`) lives outside the
embedded file. -/
structure RefSpec where
  ref : String
  object : String

/-- Modelled from the spec: `reference.Spec.Digest()` is not in the
embedded source file; per the spec's data model, if `object` begins with
`@` the remainder parses as a digest, else the object is a tag and the
digest is empty. -/
def specDigest (object : String) : String :=
  if object.toList.head? = some '@' then ⟨object.toList.drop 1⟩ else ""

/-! ## Host filtering (dockerBase.filterHosts) -/

/-- filterHosts: keep hosts advertising the required capabilities
(`HostCapabilityPull`, plus `HostCapabilityResolve` for tag references). -/
def filterHosts (hosts : List RegistryHost) (needResolve : Bool) : List RegistryHost :=
  hosts.filter (fun h => h.capPull && (!needResolve || h.capResolve))

/-! ## The network oracle -/

/-- The world a `Resolve` call observes, indexed by (path index, host
index) attempt pair: the outcome of the HEAD request (after
`doWithRetries`), the outcome of the follow-up GET, digest validation
(`digest.Digest.Validate` from the external go-digest package) and the
digest of a byte stream (`digest.FromReader`). A `.error` outcome is a
request-level (transport or auth) failure. -/
structure ResolveEnv where
  headResult : Nat → Nat → Except Unit Response
  getResult : Nat → Nat → Except Unit Response
  validateDigest : String → Bool
  digestOf : List Nat → String

/-! ## One (path, host) attempt of the Resolve loop -/

/-- Digest-header adoption step (resolver.go lines 347-359): when no
digest is known, a present `Docker-Content-Digest` header is validated
and adopted only if the reported size is known (`!= -1`); a present but
invalid header is a terminal error. -/
def headerStep (env : ResolveEnv) (dgst : String) (resp : Response) :
    Except ResolveErr String :=
  if dgst = "" then
    let dgstHeader := resp.dockerContentDigest
    if dgstHeader ≠ "" ∧ resp.contentLength ≠ -1 then
      if env.validateDigest dgstHeader = true then .ok dgstHeader
      else .error (.invalidDigestHeader dgstHeader)
    else .ok dgst
  else .ok dgst

/-- Outcome of one (path, host) attempt before the size ceiling:
`proceed` carries the digest, media type and size that would be
assembled into a descriptor; `failCont` is a record-and-continue failure
with its priority as written at the source call site; `term` breaks out
of the loop. -/
inductive CoreOut where
  | proceed (dgst contentType : String) (size : Int)
  | failCont (priority : Nat) (e : ResolveErr)
  | term (e : ResolveErr)
deriving DecidableEq

/-- One (path, host) attempt of the Resolve loop (resolver.go lines
298-399), up to but excluding the size-ceiling check. The second
component records whether the follow-up GET was issued. -/
def attemptCore (env : ResolveEnv) (ref : String) (p h : Nat) (dgst : String) :
    CoreOut × Bool :=
  match env.headResult p h with
  | .error _ => (.failCont 1 (.requestError p h), false)
  | .ok resp =>
    if resp.statusCode > 299 then
      if resp.statusCode = 404 then (.failCont 2 (.notFound ref), false)
      else if resp.statusCode > 399 then
        (.failCont 3 (.unexpectedStatus resp.statusCode), false)
      else (.term (.unexpectedStatus resp.statusCode), false)
    else
      match headerStep env dgst resp with
      | .error e => (.term e, false)
      | .ok dgst1 =>
        if dgst1 = "" ∨ resp.contentLength = -1 then
          match env.getResult p h with
          | .error _ => (.term (.getRequestFailed p h), true)
          | .ok resp2 =>
            if dgst1 ≠ "" then
              (.proceed dgst1 (getManifestMediaType resp2) (Int.ofNat resp2.body.length), true)
            else if getManifestMediaType resp2 = MediaTypeDockerSchema1Manifest then
              (.term .schema1NotSupported, true)
            else
              (.proceed (env.digestOf resp2.body) (getManifestMediaType resp2)
                (Int.ofNat resp2.body.length), true)
        else
          (.proceed dgst1 (getManifestMediaType resp) resp.contentLength, false)

/-! ## Error recording (firstErr / firstErrPriority) -/

/-- The recorded `(firstErrPriority, firstErr)` pair; `none` stands for
the initial `firstErrPriority == 0`. Replacement happens exactly when
`firstErrPriority < priority`, as in the source. -/
def recordErr (cur : Option (Nat × ResolveErr)) (priority : Nat) (e : ResolveErr) :
    Option (Nat × ResolveErr) :=
  match cur with
  | none => some (priority, e)
  | some (p, e0) => if p < priority then some (priority, e) else some (p, e0)

/-- The recorded priority (`firstErrPriority`, 0 when nothing recorded). -/
def priOf : Option (Nat × ResolveErr) → Nat
  | none => 0
  | some (p, _) => p

/-- The error returned after the loop: `firstErr`, or `ref: not found`
when nothing was recorded (resolver.go lines 420-426). -/
def errOf (ref : String) : Option (Nat × ResolveErr) → ResolveErr
  | none => .notFound ref
  | some (_, e) => e

/-! ## The Resolve loop -/

/-- The ordered (path, host) attempt pairs: outer loop over paths, inner
loop over the filtered hosts. -/
def attemptList (numPaths numHosts : Nat) : List (Nat × Nat) :=
  (List.range numPaths).flatMap (fun p => (List.range numHosts).map (fun h => (p, h)))

/-- The Resolve double loop (resolver.go lines 290-418 and the
post-loop error selection), threading the loop-carried `dgst` and the
recorded error. The size-ceiling check (lines 400-407) records a
priority-4 error and continues. -/
def resolveGo (env : ResolveEnv) (ref : String) :
    List (Nat × Nat) → String → Option (Nat × ResolveErr) → Except ResolveErr Descriptor
  | [], _, cur => .error (errOf ref cur)
  | (p, h) :: rest, dgst, cur =>
    match attemptCore env ref p h dgst with
    | (.term e, _) => .error e
    | (.failCont pr e, _) => resolveGo env ref rest dgst (recordErr cur pr e)
    | (.proceed d ct size, _) =>
      if size > MaxManifestSize then
        resolveGo env ref rest d (recordErr cur 4 (.sizeExceeded size ref))
      else .ok { digest := d, mediaType := ct, size := size }

/-- The number of candidate paths (resolver.go lines 252-268): for a
digest reference, `manifests/<digest>` then the `blobs/<digest>`
fallback; for a tag, only `manifests/<tag>`. -/
def resolvePaths (r : RefSpec) : Nat :=
  if specDigest r.object ≠ "" then 2 else 1

/-- The filtered host list for a resolution: Pull is always required,
Resolve additionally for tag references (resolver.go lines 249-270). -/
def resolveHosts (r : RefSpec) (hostsList : List RegistryHost) : List RegistryHost :=
  filterHosts hostsList (specDigest r.object = "")

/-- Resolve (resolver.go lines 236-427): object check, input digest
validation, path construction (manifests then blobs for digest refs,
manifests only for tags), host filtering, then the loop. -/
def resolve (env : ResolveEnv) (r : RefSpec) (hostsList : List RegistryHost) :
    Except ResolveErr Descriptor :=
  if r.object = "" then .error .objectRequired
  else if specDigest r.object ≠ "" ∧ env.validateDigest (specDigest r.object) = false then
    .error (.invalidDigest (specDigest r.object))
  else if (resolveHosts r hostsList).length = 0 then .error .noResolveHosts
  else
    resolveGo env r.ref (attemptList (resolvePaths r) (resolveHosts r hostsList).length)
      (specDigest r.object) none

/-! ## The retry engine (resolver.go lines 734-791) -/

/-- Errors out of the retry engine. -/
inductive RetryErr where
  | authFailed
deriving DecidableEq

/-- retryRequest (resolver.go lines 753-791): decides whether to retry,
possibly demoting HEAD to GET on 405, and may surface an authorizer
error. Returns (retry flag, possibly-mutated request, error). -/
def retryRequest (r : Request) (responses : List Response) (lastHost : Bool) :
    Bool × Request × Option RetryErr :=
  if responses.length > 5 then (false, r, none)
  else
    match responses.getLast? with
    | none => (false, r, none)
    | some last =>
      if last.statusCode = 401 then
        match r.host.authorizer with
        | some a =>
          match a.addResponses responses with
          | .ok => (true, r, none)
          | .failed => (false, r, some .authFailed)
          | .notImplemented => (false, r, none)
        | none => (false, r, none)
      else if last.statusCode = 405 then
        if r.method = "HEAD" ∧ containsSubstr r.path "/manifests/" = true then
          (true, { r with method := "GET" }, none)
        else (false, r, none)
      else if last.statusCode = 408 ∨ last.statusCode = 429 then (true, r, none)
      else if last.statusCode = 503 ∨ last.statusCode = 504 ∨ last.statusCode = 500 then
        if responses.length > 1 ∧
            (responses[responses.length - 2]?).map Response.statusCode = some last.statusCode then
          (false, r, none)
        else if lastHost then (true, r, none)
        else (false, r, none)
      else (false, r, none)

/-- A retry flag can only be produced while at most 5 responses have
been collected. -/
theorem retryRequest_true_len (r : Request) (responses : List Response) (lastHost : Bool)
    (h : (retryRequest r responses lastHost).1 = true) : responses.length ≤ 5 := by
  unfold retryRequest at h
  by_cases hl : responses.length > 5
  · simp [hl] at h
  · omega

/-- Request-level failure out of `doWithRetriesInner`. -/
inductive DoErr where
  | transport
  | retryFailed (e : RetryErr)
deriving DecidableEq

/-- doWithRetriesInner (resolver.go lines 734-751): perform the request
via the network oracle (`net`, indexed by the number of responses
already collected), append the response, consult `retryRequest`, and
recurse while it says to retry. Also returns the number of HTTP
attempts performed and the collected responses. Totality of this Lean
function is the termination argument: a retry is only possible while at
most 5 responses exist. -/
def doWithRetriesInner (net : Nat → Except Unit Response) (r : Request)
    (responses : List Response) (lastHost : Bool) :
    Nat × List Response × Except DoErr Response :=
  match net responses.length with
  | .error _ => (1, responses, .error .transport)
  | .ok resp =>
    let responses' := responses ++ [resp]
    let t := retryRequest r responses' lastHost
    match t.2.2 with
    | some e => (1, responses', .error (.retryFailed e))
    | none =>
      if h : t.1 = true then
        let res := doWithRetriesInner net t.2.1 responses' lastHost
        (res.1 + 1, res.2)
      else (1, responses', .ok resp)
termination_by 6 - responses.length
decreasing_by
  have hlen := retryRequest_true_len r responses' lastHost h
  simp only [responses', List.length_append, List.length_singleton] at hlen ⊢
  omega

/-! ## addNamespace (resolver.go lines 576-597) -/

/-- Split a character list at every occurrence of a separator. -/
def splitOnChar (sep : Char) : List Char → List (List Char)
  | [] => [[]]
  | x :: rest =>
    if x = sep then [] :: splitOnChar sep rest
    else
      match splitOnChar sep rest with
      | [] => [[x]]
      | g :: gs => (x :: g) :: gs

/-- Modelled from the Go `net/url` package (not part of this
repository): parse a query string into key/value pairs (split on `&`,
key before the first `=`, value after it). Simplified to inputs without
percent-escapes, which covers every input the embedded call sites
produce. -/
def parseQuery (s : String) : List (String × String) :=
  if s = "" then []
  else (splitOnChar '&' s.toList).map (fun kv =>
    let k : List Char := kv.takeWhile (fun c => c ≠ '=')
    match kv.dropWhile (fun c => c ≠ '=') with
    | [] => (⟨k⟩, "")
    | _ :: v => (⟨k⟩, ⟨v⟩))

/-- Lexicographic order on character lists (Go byte order restricted to
ASCII). -/
def charListLe : List Char → List Char → Bool
  | [], _ => true
  | _ :: _, [] => false
  | a :: as, b :: bs =>
    if a.toNat < b.toNat then true
    else if b.toNat < a.toNat then false
    else charListLe as bs

/-- Lexicographic order on strings. -/
def strLe (a b : String) : Bool :=
  charListLe a.toList b.toList

/-- Insertion into a key-sorted list, used to model the key sorting of
`url.Values.Encode`. -/
def insertSorted (kv : String × String) : List (String × String) → List (String × String)
  | [] => [kv]
  | kv' :: rest =>
    if strLe kv.1 kv'.1 then kv :: kv' :: rest else kv' :: insertSorted kv rest

/-- Join strings with `&` separators. -/
def joinAmp : List String → String
  | [] => ""
  | [s] => s
  | s :: rest => s ++ "&" ++ joinAmp rest

/-- Modelled from the Go `net/url` package: `url.Values.Encode` sorts by
key and joins `k=v` pairs with `&`. Simplified to values that need no
percent-escaping. -/
def encodeQuery (q : List (String × String)) : String :=
  joinAmp ((q.foldr insertSorted []).map (fun kv => kv.1 ++ "=" ++ kv.2))

/-- addNamespace (resolver.go lines 576-597): for proxy hosts, append
the `ns` query parameter. Mirrors the source exactly: when the path
already contains `?` at index `i > 0`, the path is truncated to
`path[:i+1]` first and the query string is then parsed from the
truncated path (hence always from the empty string). -/
def addNamespace (host : RegistryHost) (ns : String) (path : String) : String :=
  if host.isProxy ns = false then path
  else
    match path.toList.findIdx? (fun c => c = '?') with
    | some i =>
      if i > 0 then
        let path' := strTake path (i + 1)
        let q := parseQuery (strDrop path' (i + 1))
        path' ++ encodeQuery (q ++ [("ns", ns)])
      else
        (path ++ "?") ++ encodeQuery [("ns", ns)]
    | none => (path ++ "?") ++ encodeQuery [("ns", ns)]

/-- Modelled from the spec: the intended behaviour of `addNamespace` —
append `ns=<namespace>`, preserving any existing query string. -/
def addNamespaceIntended (host : RegistryHost) (ns : String) (path : String) : String :=
  if host.isProxy ns = false then path
  else
    match path.toList.findIdx? (fun c => c = '?') with
    | some i =>
      if i > 0 then
        let path' := strTake path (i + 1)
        let q := parseQuery (strDrop path (i + 1))
        path' ++ encodeQuery (q ++ [("ns", ns)])
      else
        (path ++ "?") ++ encodeQuery [("ns", ns)]
    | none => (path ++ "?") ++ encodeQuery [("ns", ns)]

/-! ## Concrete fixtures used by witnesses and counterexamples -/

/-- A plain registry host with Pull and Resolve capabilities and no
authorizer. -/
def exampleHost : RegistryHost :=
  { host := "example.com", scheme := "https", hostPath := "/v2",
    capPull := true, capResolve := true, authorizer := none,
    isProxy := fun _ => false }

/-- The same host acting as a proxy for the `example.com` namespace. -/
def proxyExampleHost : RegistryHost :=
  { exampleHost with isProxy := fun ns => ns == "example.com" }

/-- A HEAD request to a manifests endpoint on `exampleHost`. -/
def headReq : Request :=
  { method := "HEAD", path := "/v2/foo/manifests/latest", host := exampleHost }

/-- A response carrying only a status code. -/
def respWithStatus (s : Nat) : Response :=
  { statusCode := s, contentLength := 0, contentType := "",
    dockerContentDigest := "", body := [] }

/-- A successful HEAD response with digest header, media type and size. -/
def respOk : Response :=
  { statusCode := 200, contentLength := 1234,
    contentType := "application/vnd.oci.image.manifest.v1+json",
    dockerContentDigest := "sha256:abc", body := [] }

/-- An environment in which every HEAD succeeds with `respOk`. -/
def envOk : ResolveEnv :=
  { headResult := fun _ _ => .ok respOk,
    getResult := fun _ _ => .error (),
    validateDigest := fun s => s == "sha256:abc",
    digestOf := fun _ => "sha256:body" }

/-- A tag reference `example.com/app:v1`. -/
def refTag : RefSpec := { ref := "example.com/app:v1", object := "v1" }

/-- A digest reference `example.com/app@sha256:abc`. -/
def refDig : RefSpec := { ref := "example.com/app@sha256:abc", object := "@sha256:abc" }

/-! ## C2 — MaxManifestSize -/

/-- C2 counterexample: the claim states `MaxManifestSize` equals exactly
4 194 304 bytes; the source computes `4 * 1048 * 1048`, which does not. -/
theorem maxManifestSize_not_4194304 : ¬ (MaxManifestSize = 4194304) := by
  decide

/-- C2 (amended): `MaxManifestSize` is `4 * 1048 * 1048 = 4 393 216`
bytes, not 4 194 304 (which would be `4 * 1024 * 1024`). -/
theorem maxManifestSize_value : MaxManifestSize = 4393216 := by
  decide

/-! ## C9 — addNamespace -/

set_option maxRecDepth 8000 in
/-- C9: for a proxy host, `addNamespace` appends `ns=<namespace>`, but —
contrary to the claim and to the evident intent of the parse-and-reencode
structure of the source — it truncates the path at `?` before parsing the
old query string, so an existing query string is dropped, not preserved:
on `/v2/foo/manifests/latest?foo=bar` the code produces
`?ns=example.com` where the intended behaviour (second conjunct, the
spec-modelled variant) keeps `foo=bar`. For non-proxy hosts the path is
left unchanged (third conjunct). -/
theorem addNamespace_drops_existing_query :
    addNamespace proxyExampleHost "example.com" "/v2/foo/manifests/latest?foo=bar"
      = "/v2/foo/manifests/latest?ns=example.com" ∧
    addNamespaceIntended proxyExampleHost "example.com" "/v2/foo/manifests/latest?foo=bar"
      = "/v2/foo/manifests/latest?foo=bar&ns=example.com" ∧
    ∀ p : String, addNamespace exampleHost "example.com" p = p := by
  refine ⟨by decide, by decide, fun p => rfl⟩

/-! ## C5 — 5xx retry rule -/

/-- Unfolding of `retryRequest` once the last response and the cap check
are known. -/
theorem retryRequest_unfold (r : Request) (responses : List Response) (lastHost : Bool)
    (last : Response) (hgl : responses.getLast? = some last)
    (hcap : ¬ responses.length > 5) :
    retryRequest r responses lastHost =
      (if last.statusCode = 401 then
        match r.host.authorizer with
        | some a =>
          match a.addResponses responses with
          | .ok => (true, r, none)
          | .failed => (false, r, some .authFailed)
          | .notImplemented => (false, r, none)
        | none => (false, r, none)
      else if last.statusCode = 405 then
        if r.method = "HEAD" ∧ containsSubstr r.path "/manifests/" = true then
          (true, { r with method := "GET" }, none)
        else (false, r, none)
      else if last.statusCode = 408 ∨ last.statusCode = 429 then (true, r, none)
      else if last.statusCode = 503 ∨ last.statusCode = 504 ∨ last.statusCode = 500 then
        if responses.length > 1 ∧
            (responses[responses.length - 2]?).map Response.statusCode
              = some last.statusCode then
          (false, r, none)
        else if lastHost then (true, r, none)
        else (false, r, none)
      else (false, r, none)) := by
  unfold retryRequest
  rw [if_neg hcap, hgl]

/-- The previous response consulted by the 5xx rule is the last element
of the earlier responses. -/
theorem prevResponse_eq (rs : List Response) (last : Response) (h : rs ≠ []) :
    (rs ++ [last])[(rs ++ [last]).length - 2]? = rs.getLast? := by
  have hlen : (rs ++ [last]).length = rs.length + 1 := by simp
  rw [hlen]
  have h2 : rs.length + 1 - 2 = rs.length - 1 := by omega
  rw [h2]
  have hpos : 0 < rs.length := List.length_pos.mpr h
  rw [List.getElem?_append_left (by omega : rs.length - 1 < rs.length)]
  exact (List.getLast?_eq_getElem? rs).symm

/-- C5 counterexample: a 502 response on the final host, with no
previous attempt and the retry cap not reached, is exactly a situation
in which the claim requires a retry; the code does not retry 502 (it is
absent from the 5xx case of the switch). -/
theorem retryRequest_502_not_retried :
    (retryRequest headReq [respWithStatus 502] true).1 = false := by
  decide

/-- C5 (amended): the 5xx retry rule applies to 500, 503 and 504 only
(502 is never retried): for a last response with such a status, the
engine retries iff this is the final host, the previous response (if
any) did not have the same status, and at most 5 responses have been
collected. -/
theorem retryRequest_5xx (r : Request) (rs : List Response) (last : Response)
    (lastHost : Bool) (s : Nat) (hs : s = 500 ∨ s = 503 ∨ s = 504)
    (hlast : last.statusCode = s) :
    (retryRequest r (rs ++ [last]) lastHost).1 = true ↔
      (rs.length + 1 ≤ 5 ∧ lastHost = true ∧
        ∀ p, rs.getLast? = some p → p.statusCode ≠ s) := by
  have hgl : (rs ++ [last]).getLast? = some last := List.getLast?_concat rs
  have hlen : (rs ++ [last]).length = rs.length + 1 := by simp
  by_cases hcap : (rs ++ [last]).length > 5
  · unfold retryRequest
    rw [if_pos hcap]
    constructor
    · intro h; exact absurd h (by simp)
    · rintro ⟨h1, -, -⟩; rw [hlen] at hcap; omega
  · rw [retryRequest_unfold r (rs ++ [last]) lastHost last hgl hcap]
    have h401 : ¬ last.statusCode = 401 := by omega
    have h405 : ¬ last.statusCode = 405 := by omega
    have h408 : ¬ (last.statusCode = 408 ∨ last.statusCode = 429) := by omega
    have h5xx : last.statusCode = 503 ∨ last.statusCode = 504 ∨ last.statusCode = 500 := by
      omega
    rw [if_neg h401, if_neg h405, if_neg h408, if_pos h5xx]
    rcases hrs : rs.getLast? with - | q
    · have hrsnil : rs = [] := List.getLast?_eq_none_iff.mp hrs
      subst hrsnil
      have hc1 : ¬ (([] ++ [last] : List Response).length > 1 ∧
          ((([] ++ [last] : List Response))[([] ++ [last] : List Response).length - 2]?).map
            Response.statusCode = some last.statusCode) := by
        rintro ⟨hgt, -⟩; simp at hgt
      rw [if_neg hc1]
      cases lastHost
      · simp
      · constructor
        · intro _
          refine ⟨by omega, rfl, fun p hp => ?_⟩
          simp at hp
        · intro _
          simp
    · have hrsne : rs ≠ [] := by
        intro h; rw [h] at hrs; simp at hrs
      have hprev := prevResponse_eq rs last hrsne
      by_cases hqs : q.statusCode = s
      · have hc1 : (rs ++ [last]).length > 1 ∧
            ((rs ++ [last])[(rs ++ [last]).length - 2]?).map Response.statusCode
              = some last.statusCode := by
          constructor
          · rw [hlen]; have := List.length_pos.mpr hrsne; omega
          · rw [hprev, hrs, hlast]; simp [hqs]
        rw [if_pos hc1]
        constructor
        · intro h; exact absurd h (by simp)
        · rintro ⟨-, -, hall⟩; exact absurd hqs (hall q rfl)
      · have hc1 : ¬ ((rs ++ [last]).length > 1 ∧
            ((rs ++ [last])[(rs ++ [last]).length - 2]?).map Response.statusCode
              = some last.statusCode) := by
          rintro ⟨-, hm⟩
          rw [hprev, hrs, hlast] at hm
          simp at hm
          exact hqs hm
        rw [if_neg hc1]
        rw [hlen] at hcap
        cases lastHost
        · simp
        · constructor
          · intro _
            refine ⟨by omega, rfl, fun p hp => ?_⟩
            cases hp
            exact hqs
          · intro _
            simp

/-- C5 witness: a 500 after a 404 on the final host retries. -/
theorem retryRequest_5xx_witness :
    (retryRequest headReq [respWithStatus 404, respWithStatus 500] true).1 = true ↔
      ([respWithStatus 404].length + 1 ≤ 5 ∧ true = true ∧
        ∀ p, [respWithStatus 404].getLast? = some p → p.statusCode ≠ 500) :=
  retryRequest_5xx headReq [respWithStatus 404] (respWithStatus 500) true 500
    (Or.inl rfl) rfl

/-! ## C6 — attempt bound and termination of the retry engine -/

/-- Attempt-count bound for `doWithRetriesInner`, by induction on the
remaining budget `6 - responses.length`. -/
theorem doWithRetries_attempts_le (net : Nat → Except Unit Response) (lastHost : Bool) :
    ∀ (fuel : Nat) (r : Request) (responses : List Response),
      6 - responses.length ≤ fuel →
      (doWithRetriesInner net r responses lastHost).1 ≤ max (6 - responses.length) 1 := by
  intro fuel
  induction fuel with
  | zero =>
    intro r responses hf
    unfold doWithRetriesInner
    cases hnet : net responses.length with
    | error e => simp only [hnet]; omega
    | ok resp =>
      have hnr : ¬ (retryRequest r (responses ++ [resp]) lastHost).1 = true := by
        intro h
        have hle := retryRequest_true_len _ _ _ h
        simp only [List.length_append, List.length_singleton] at hle
        omega
      simp only [hnet]
      cases herr : (retryRequest r (responses ++ [resp]) lastHost).2.2 with
      | some e => simp only [herr]; omega
      | none => simp [herr, hnr]
  | succ n ih =>
    intro r responses hf
    unfold doWithRetriesInner
    cases hnet : net responses.length with
    | error e => simp only [hnet]; omega
    | ok resp =>
      simp only [hnet]
      cases herr : (retryRequest r (responses ++ [resp]) lastHost).2.2 with
      | some e => simp only [herr]; omega
      | none =>
        by_cases hretry : (retryRequest r (responses ++ [resp]) lastHost).1 = true
        · simp only [herr, hretry, dite_true]
          have hlen5 : (responses ++ [resp]).length ≤ 5 :=
            retryRequest_true_len _ _ _ hretry
          simp only [List.length_append, List.length_singleton] at hlen5
          have hrec := ih ((retryRequest r (responses ++ [resp]) lastHost).2.1)
            (responses ++ [resp])
            (by simp only [List.length_append, List.length_singleton]; omega)
          simp only [List.length_append, List.length_singleton] at hrec
          omega
        · simp [herr, hretry]

/-- C6: every request performs at most 6 HTTP attempts in total (the
initial attempt plus at most 5 retries), whatever responses the network
produces; `doWithRetriesInner` itself is a total function (its Lean
definition carries the termination argument: a retry is only possible
while at most 5 responses have been collected). -/
theorem doWithRetriesInner_at_most_six_attempts (net : Nat → Except Unit Response)
    (r : Request) (lastHost : Bool) :
    (doWithRetriesInner net r [] lastHost).1 ≤ 6 := by
  have h := doWithRetries_attempts_le net lastHost 6 r [] (by simp)
  simpa using h

/-! ## Resolve loop step lemma -/

/-- One step of the Resolve loop. -/
theorem resolveGo_cons (env : ResolveEnv) (ref : String) (p h : Nat)
    (rest : List (Nat × Nat)) (dgst : String) (cur : Option (Nat × ResolveErr)) :
    resolveGo env ref ((p, h) :: rest) dgst cur =
      (match attemptCore env ref p h dgst with
      | (.term e, _) => .error e
      | (.failCont pr e, _) => resolveGo env ref rest dgst (recordErr cur pr e)
      | (.proceed d ct size, _) =>
        if size > MaxManifestSize then
          resolveGo env ref rest d (recordErr cur 4 (.sizeExceeded size ref))
        else .ok { digest := d, mediaType := ct, size := size }) := rfl

/-! ## C10 — 401 without an authorizer -/

/-- C10: when the host has no authorizer, a 401 is terminal in the retry
engine with no error: `retryRequest` answers (no retry, no error), so
`doWithRetriesInner` returns the 401 response itself; the Resolve loop
then classifies any 401 response as a priority-3 unexpected-status
error and continues with the next (path, host) pair. -/
theorem unauthorized_without_authorizer (r : Request) (rs : List Response)
    (resp401 : Response) (net : Nat → Except Unit Response) (lastHost : Bool)
    (hauth : r.host.authorizer = none) (hst : resp401.statusCode = 401)
    (hnet : net 0 = .ok resp401) :
    retryRequest r (rs ++ [resp401]) lastHost = (false, r, none) ∧
    doWithRetriesInner net r [] lastHost = (1, [resp401], .ok resp401) ∧
    (∀ (env : ResolveEnv) (ref : String) (p h : Nat) (dgst : String)
      (rest : List (Nat × Nat)) (cur : Option (Nat × ResolveErr)) (resp : Response),
      env.headResult p h = .ok resp → resp.statusCode = 401 →
      attemptCore env ref p h dgst = (.failCont 3 (.unexpectedStatus 401), false) ∧
      resolveGo env ref ((p, h) :: rest) dgst cur =
        resolveGo env ref rest dgst (recordErr cur 3 (.unexpectedStatus 401))) := by
  have hgen : ∀ rs' : List Response,
      retryRequest r (rs' ++ [resp401]) lastHost = (false, r, none) := by
    intro rs'
    by_cases hcap : (rs' ++ [resp401]).length > 5
    · unfold retryRequest
      rw [if_pos hcap]
    · rw [retryRequest_unfold r _ lastHost resp401 (List.getLast?_concat rs') hcap]
      rw [if_pos hst, hauth]
  refine ⟨hgen rs, ?_, ?_⟩
  · have h1 : retryRequest r [resp401] lastHost = (false, r, none) := by
      simpa using hgen []
    unfold doWithRetriesInner
    simp [hnet, h1]
  · intro env ref p h dgst rest cur resp hhead hstc
    have hcore : attemptCore env ref p h dgst
        = (.failCont 3 (.unexpectedStatus 401), false) := by
      unfold attemptCore
      split <;> rename_i heq
      · rw [hhead] at heq
        simp at heq
      · rw [hhead] at heq
        injection heq with h1
        subst h1
        rw [hstc]
        norm_num
    refine ⟨hcore, ?_⟩
    rw [resolveGo_cons, hcore]

/-- A network oracle that always answers 401. -/
def net401 : Nat → Except Unit Response := fun _ => .ok (respWithStatus 401)

/-- A resolution environment in which every HEAD yields a 401. -/
def env401 : ResolveEnv :=
  { headResult := fun _ _ => .ok (respWithStatus 401),
    getResult := fun _ _ => .error (),
    validateDigest := fun _ => true,
    digestOf := fun _ => "" }

/-- C10 witness: `headReq` has no authorizer; a single 401 response is
returned to the caller and classified at priority 3 by the loop. -/
theorem unauthorized_without_authorizer_witness :
    retryRequest headReq ([] ++ [respWithStatus 401]) true = (false, headReq, none) ∧
    doWithRetriesInner net401 headReq [] true
      = (1, [respWithStatus 401], .ok (respWithStatus 401)) ∧
    attemptCore env401 "example.com/app:v1" 0 0 ""
      = (.failCont 3 (.unexpectedStatus 401), false) :=
  ⟨(unauthorized_without_authorizer headReq [] (respWithStatus 401) net401 true
      rfl rfl rfl).1,
   (unauthorized_without_authorizer headReq [] (respWithStatus 401) net401 true
      rfl rfl rfl).2.1,
   ((unauthorized_without_authorizer headReq [] (respWithStatus 401) net401 true
      rfl rfl rfl).2.2 env401 "example.com/app:v1" 0 0 "" [] none (respWithStatus 401)
      rfl rfl).1⟩

/-! ## Properties of one attempt -/

/-- Base case of the Resolve loop. -/
theorem resolveGo_nil (env : ResolveEnv) (ref dgst : String)
    (cur : Option (Nat × ResolveErr)) :
    resolveGo env ref [] dgst cur = .error (errOf ref cur) := rfl

/-- With a known digest the header-adoption step is the identity. -/
theorem headerStep_nonempty (env : ResolveEnv) (dgst : String) (resp : Response)
    (hne : dgst ≠ "") : headerStep env dgst resp = .ok dgst := by
  unfold headerStep
  rw [if_neg hne]

/-- A known digest is threaded unchanged into the descriptor an attempt
would assemble. -/
theorem attemptCore_proceed_digest (env : ResolveEnv) (ref : String) (p h : Nat)
    (dgst d ct : String) (size : Int) (u : Bool)
    (hne : dgst ≠ "")
    (hc : attemptCore env ref p h dgst = (.proceed d ct size, u)) : d = dgst := by
  unfold attemptCore at hc
  split at hc
  · simp at hc
  · rename_i resp heq
    split at hc
    · split at hc
      · simp at hc
      · split at hc <;> simp at hc
    · split at hc <;> rename_i heq2
      · simp at hc
      · rename_i dgst1
        rw [headerStep_nonempty env dgst resp hne] at heq2
        injection heq2 with h1
        subst h1
        split at hc
        · split at hc
          · simp at hc
          · simp only [Prod.mk.injEq, CoreOut.proceed.injEq] at hc
            exact hc.1.1.symm
        · simp only [Prod.mk.injEq, CoreOut.proceed.injEq] at hc
          exact hc.1.1.symm

/-- Sizes at or below the ceiling are the only ones a successful loop
can return. -/
theorem resolveGo_ok_size (env : ResolveEnv) (ref : String) :
    ∀ (l : List (Nat × Nat)) (dgst : String) (cur : Option (Nat × ResolveErr))
      (d : Descriptor),
      resolveGo env ref l dgst cur = .ok d → d.size ≤ MaxManifestSize := by
  intro l
  induction l with
  | nil =>
    intro dgst cur d hok
    rw [resolveGo_nil] at hok
    simp at hok
  | cons ph rest ih =>
    intro dgst cur d hok
    obtain ⟨p, h⟩ := ph
    rw [resolveGo_cons] at hok
    split at hok
    · simp at hok
    · exact ih _ _ _ hok
    · split at hok
      · exact ih _ _ _ hok
      · rename_i d1 ct1 size1 u1 hsz
        injection hok with h1
        subst h1
        simp only [Descriptor.mk.injEq]
        omega

/-! ## C3 — size ceiling -/

/-- A size above the ceiling records a priority-4 error and moves to the
next (path, host) pair. -/
theorem resolveGo_size_reject (env : ResolveEnv) (ref : String) (p h : Nat)
    (rest : List (Nat × Nat)) (dgst : String) (cur : Option (Nat × ResolveErr))
    (d ct : String) (size : Int) (u : Bool)
    (hc : attemptCore env ref p h dgst = (.proceed d ct size, u))
    (hsz : size > MaxManifestSize) :
    resolveGo env ref ((p, h) :: rest) dgst cur =
      resolveGo env ref rest d (recordErr cur 4 (.sizeExceeded size ref)) := by
  rw [resolveGo_cons, hc]
  exact if_pos hsz

/-- C3: every successful resolution returns a size at most
`MaxManifestSize`; and an attempt whose computed size exceeds the
ceiling makes the loop record a priority-4 not-found error whose message
names the rejected byte count, and continue with the remaining
(path, host) pairs instead of returning a descriptor. -/
theorem resolve_size_ceiling :
    (∀ (env : ResolveEnv) (r : RefSpec) (hostsList : List RegistryHost) (d : Descriptor),
      resolve env r hostsList = .ok d → d.size ≤ MaxManifestSize) ∧
    (∀ (env : ResolveEnv) (ref : String) (p h : Nat) (rest : List (Nat × Nat))
      (dgst : String) (cur : Option (Nat × ResolveErr)) (d ct : String) (size : Int)
      (u : Bool),
      attemptCore env ref p h dgst = (.proceed d ct size, u) → size > MaxManifestSize →
      resolveGo env ref ((p, h) :: rest) dgst cur =
        resolveGo env ref rest d (recordErr cur 4 (.sizeExceeded size ref)) ∧
      errMessage (.sizeExceeded size ref) =
        "rejecting " ++ toString size ++ " byte manifest for " ++ ref ++ ": not found") := by
  constructor
  · intro env r hostsList d hok
    unfold resolve at hok
    split at hok
    · simp at hok
    · split at hok
      · simp at hok
      · split at hok
        · simp at hok
        · exact resolveGo_ok_size env r.ref _ _ _ _ hok
  · intro env ref p h rest dgst cur d ct size u hc hsz
    exact ⟨resolveGo_size_reject env ref p h rest dgst cur d ct size u hc hsz, rfl⟩

/-- A HEAD response announcing a 10 000 000 byte manifest. -/
def respBig : Response := { respOk with contentLength := 10000000 }

/-- An environment in which every HEAD announces the oversized manifest. -/
def envBig : ResolveEnv := { envOk with headResult := fun _ _ => .ok respBig }

/-- The descriptor resolved by `envOk` for a tag reference. -/
def descOkW : Descriptor :=
  { digest := "sha256:abc",
    mediaType := "application/vnd.oci.image.manifest.v1+json", size := 1234 }

set_option maxRecDepth 8000 in
/-- C3 witness: the happy-path resolution obeys the ceiling, and the
oversized attempt records the priority-4 error and continues. -/
theorem resolve_size_ceiling_witness :
    descOkW.size ≤ MaxManifestSize ∧
    (resolveGo envBig "example.com/app:v1" [(0, 0)] "" none =
       resolveGo envBig "example.com/app:v1" [] "sha256:abc"
         (recordErr none 4 (.sizeExceeded 10000000 "example.com/app:v1")) ∧
     errMessage (.sizeExceeded 10000000 "example.com/app:v1") =
       "rejecting " ++ toString (10000000 : Int) ++ " byte manifest for "
         ++ "example.com/app:v1" ++ ": not found") :=
  ⟨resolve_size_ceiling.1 envOk refTag [exampleHost] descOkW rfl,
   resolve_size_ceiling.2 envBig "example.com/app:v1" 0 0 [] "" none
     "sha256:abc" "application/vnd.oci.image.manifest.v1+json" 10000000 false
     rfl (by decide)⟩

/-! ## C4 — input digest preserved -/

/-- A known digest is returned unchanged by a successful loop. -/
theorem resolveGo_ok_digest (env : ResolveEnv) (ref : String) :
    ∀ (l : List (Nat × Nat)) (dgst : String) (cur : Option (Nat × ResolveErr))
      (d : Descriptor),
      dgst ≠ "" → resolveGo env ref l dgst cur = .ok d → d.digest = dgst := by
  intro l
  induction l with
  | nil =>
    intro dgst cur d hne hok
    rw [resolveGo_nil] at hok
    simp at hok
  | cons ph rest ih =>
    intro dgst cur d hne hok
    obtain ⟨p, h⟩ := ph
    rw [resolveGo_cons] at hok
    split at hok <;> rename_i heq
    · simp at hok
    · exact ih _ _ _ hne hok
    · rename_i d1 ct1 size1 u1
      have hd1 : d1 = dgst :=
        attemptCore_proceed_digest env ref p h dgst d1 ct1 size1 u1 hne heq
      subst hd1
      split at hok
      · exact ih _ _ _ hne hok
      · injection hok with h1
        subst h1
        rfl

/-- C4: when the input reference carries a digest (its object begins
with `@`), a successful resolution returns exactly that digest: the
loop never reassigns a known digest (the header-adoption and
GET-computation steps are skipped or drain-only). -/
theorem resolve_input_digest_preserved (env : ResolveEnv) (r : RefSpec)
    (hostsList : List RegistryHost) (d : Descriptor)
    (hd : specDigest r.object ≠ "")
    (hok : resolve env r hostsList = .ok d) :
    d.digest = specDigest r.object := by
  unfold resolve at hok
  split at hok
  · simp at hok
  · split at hok
    · simp at hok
    · split at hok
      · simp at hok
      · exact resolveGo_ok_digest env r.ref _ _ _ _ hd hok

set_option maxRecDepth 8000 in
/-- C4 witness: resolving `example.com/app@sha256:abc` against `envOk`
succeeds and returns the input digest. -/
theorem resolve_input_digest_preserved_witness :
    specDigest refDig.object ≠ "" ∧
    resolve envOk refDig [exampleHost] = .ok descOkW ∧
    descOkW.digest = specDigest refDig.object :=
  ⟨by decide, rfl,
   resolve_input_digest_preserved envOk refDig [exampleHost] descOkW (by decide) rfl⟩

/-! ## C7 — digest header usage and the follow-up GET -/

/-- Unfolding of an attempt whose HEAD succeeded. -/
theorem attemptCore_head_ok (env : ResolveEnv) (ref : String) (p h : Nat)
    (dgst : String) (resp : Response)
    (hhead : env.headResult p h = .ok resp) (hst : ¬ resp.statusCode > 299) :
    attemptCore env ref p h dgst =
      (match headerStep env dgst resp with
      | .error e => (.term e, false)
      | .ok dgst1 =>
        if dgst1 = "" ∨ resp.contentLength = -1 then
          match env.getResult p h with
          | .error _ => (.term (.getRequestFailed p h), true)
          | .ok resp2 =>
            if dgst1 ≠ "" then
              (.proceed dgst1 (getManifestMediaType resp2)
                (Int.ofNat resp2.body.length), true)
            else if getManifestMediaType resp2 = MediaTypeDockerSchema1Manifest then
              (.term .schema1NotSupported, true)
            else
              (.proceed (env.digestOf resp2.body) (getManifestMediaType resp2)
                (Int.ofNat resp2.body.length), true)
        else (.proceed dgst1 (getManifestMediaType resp) resp.contentLength, false)) := by
  unfold attemptCore
  split <;> rename_i heq
  · rw [hhead] at heq
    simp at heq
  · rw [hhead] at heq
    injection heq with h1
    subst h1
    rw [if_neg hst]

/-- With no digest known, a present valid header and a known size are
adopted. -/
theorem headerStep_empty_adopt (env : ResolveEnv) (resp : Response)
    (hhdr : resp.dockerContentDigest ≠ "") (hsz : resp.contentLength ≠ -1)
    (hval : env.validateDigest resp.dockerContentDigest = true) :
    headerStep env "" resp = .ok resp.dockerContentDigest := by
  simp [headerStep, hhdr, hsz, hval]

/-- With no digest known, the header is skipped whenever it is absent or
the size is unknown. -/
theorem headerStep_empty_skip (env : ResolveEnv) (resp : Response)
    (hskip : ¬ (resp.dockerContentDigest ≠ "" ∧ resp.contentLength ≠ -1)) :
    headerStep env "" resp = .ok "" := by
  simp only [headerStep]
  rw [if_pos trivial, if_neg hskip]

/-- An adopted header short-circuits the GET and becomes the descriptor
digest. -/
theorem attemptCore_header_adopted (env : ResolveEnv) (ref : String) (p h : Nat)
    (resp : Response)
    (hhead : env.headResult p h = .ok resp) (hst : ¬ resp.statusCode > 299)
    (hhdr : resp.dockerContentDigest ≠ "") (hsz : resp.contentLength ≠ -1)
    (hval : env.validateDigest resp.dockerContentDigest = true) :
    attemptCore env ref p h "" =
      (.proceed resp.dockerContentDigest (getManifestMediaType resp)
        resp.contentLength, false) := by
  rw [attemptCore_head_ok env ref p h "" resp hhead hst,
      headerStep_empty_adopt env resp hhdr hsz hval]
  have hno : ¬ (resp.dockerContentDigest = "" ∨ resp.contentLength = -1) := by
    rintro (hh | hh)
    · exact hhdr hh
    · exact hsz hh
  simp [hno]

/-- Without an adopted header the follow-up GET is issued. -/
theorem attemptCore_get_flag (env : ResolveEnv) (ref : String) (p h : Nat)
    (resp : Response)
    (hhead : env.headResult p h = .ok resp) (hst : ¬ resp.statusCode > 299)
    (hskip : ¬ (resp.dockerContentDigest ≠ "" ∧ resp.contentLength ≠ -1)) :
    (attemptCore env ref p h "").2 = true := by
  rw [attemptCore_head_ok env ref p h "" resp hhead hst,
      headerStep_empty_skip env resp hskip]
  simp only [↓reduceIte, true_or, eq_self_iff_true]
  split
  · rfl
  · split
    · rfl
    · split
      · rfl
      · rfl

/-- C7 (amended): for a tag resolution (no digest yet) whose HEAD
succeeded, the `Docker-Content-Digest` header becomes the descriptor
digest only when it is present, validates, AND the reported size is
known (not -1); and — provided the header is absent or valid — the
follow-up GET is issued exactly when the header is absent or the size is
unknown. (The claim as stated omits the size condition on header
adoption; see the counterexample.) -/
theorem resolve_digest_header_usage (env : ResolveEnv) (ref : String) (p h : Nat)
    (resp : Response)
    (hhead : env.headResult p h = .ok resp) (hst : ¬ resp.statusCode > 299) :
    (resp.dockerContentDigest ≠ "" → resp.contentLength ≠ -1 →
      env.validateDigest resp.dockerContentDigest = true →
      attemptCore env ref p h "" =
        (.proceed resp.dockerContentDigest (getManifestMediaType resp)
          resp.contentLength, false)) ∧
    ((resp.dockerContentDigest = "" ∨ env.validateDigest resp.dockerContentDigest = true) →
      ((attemptCore env ref p h "").2 = true ↔
        (resp.dockerContentDigest = "" ∨ resp.contentLength = -1))) := by
  constructor
  · exact fun hhdr hsz hval =>
      attemptCore_header_adopted env ref p h resp hhead hst hhdr hsz hval
  · intro hvalid
    by_cases hcase : resp.dockerContentDigest ≠ "" ∧ resp.contentLength ≠ -1
    · have hval : env.validateDigest resp.dockerContentDigest = true := by
        rcases hvalid with hv | hv
        · exact absurd hv hcase.1
        · exact hv
      rw [attemptCore_header_adopted env ref p h resp hhead hst hcase.1 hcase.2 hval]
      constructor
      · intro hf
        simp at hf
      · rintro (hh | hh)
        · exact absurd hh hcase.1
        · exact absurd hh hcase.2
    · have hflag := attemptCore_get_flag env ref p h resp hhead hst hcase
      rw [hflag]
      constructor
      · intro _
        by_cases hh : resp.dockerContentDigest = ""
        · exact Or.inl hh
        · right
          by_contra hs
          exact hcase ⟨hh, hs⟩
      · intro _
        rfl

/-- A HEAD response with a valid digest header but unknown size. -/
def respH7 : Response :=
  { statusCode := 200, contentLength := -1,
    contentType := "application/vnd.oci.image.manifest.v1+json",
    dockerContentDigest := "sha256:aaa", body := [] }

/-- The GET body used when the registry is not trusted. -/
def respG7 : Response :=
  { statusCode := 200, contentLength := -1,
    contentType := "application/vnd.oci.image.manifest.v1+json",
    dockerContentDigest := "", body := [1, 2, 3] }

/-- An environment whose HEAD answers `respH7` and whose GET body hashes
to a digest different from the header. -/
def envC7 : ResolveEnv :=
  { headResult := fun _ _ => .ok respH7,
    getResult := fun _ _ => .ok respG7,
    validateDigest := fun s => s == "sha256:aaa" || s == "sha256:bbb",
    digestOf := fun _ => "sha256:bbb" }

/-- A tag reference `example.com/app:latest`. -/
def refLatest : RefSpec := { ref := "example.com/app:latest", object := "latest" }

set_option maxRecDepth 8000 in
/-- C7 counterexample: the HEAD response carries a present and valid
`Docker-Content-Digest` header, yet because `Content-Length` is unknown
(-1) the code does not adopt it: the returned descriptor digest is the
one computed from the GET body, not the header value. -/
theorem resolve_header_ignored_when_size_unknown :
    envC7.validateDigest respH7.dockerContentDigest = true ∧
    resolve envC7 refLatest [exampleHost] =
      .ok { digest := "sha256:bbb",
            mediaType := "application/vnd.oci.image.manifest.v1+json", size := 3 } ∧
    ¬ (("sha256:bbb" : String) = respH7.dockerContentDigest) := by
  refine ⟨rfl, rfl, by decide⟩

/-- C7 witness: with a known size and valid header (`respOk`), the
header is adopted and no GET is issued. -/
theorem resolve_digest_header_usage_witness :
    (respOk.dockerContentDigest ≠ "" → respOk.contentLength ≠ -1 →
      envOk.validateDigest respOk.dockerContentDigest = true →
      attemptCore envOk "example.com/app:v1" 0 0 "" =
        (.proceed respOk.dockerContentDigest (getManifestMediaType respOk)
          respOk.contentLength, false)) ∧
    ((respOk.dockerContentDigest = "" ∨
        envOk.validateDigest respOk.dockerContentDigest = true) →
      ((attemptCore envOk "example.com/app:v1" 0 0 "").2 = true ↔
        (respOk.dockerContentDigest = "" ∨ respOk.contentLength = -1))) :=
  resolve_digest_header_usage envOk "example.com/app:v1" 0 0 respOk rfl (by decide)

/-! ## C8 — schema 1 manifests are terminal -/

/-- C8: when the GET issued during digest computation (digest still
unknown after the header step) returns a schema 1 manifest media type,
the whole loop terminates immediately with the NotSupported error —
whatever (path, host) pairs remain — and the message directs the user
to rebuild the image. -/
theorem resolve_schema1_terminal (env : ResolveEnv) (ref : String) (p h : Nat)
    (rest : List (Nat × Nat)) (dgst : String) (cur : Option (Nat × ResolveErr))
    (resp resp2 : Response)
    (hhead : env.headResult p h = .ok resp)
    (hst : ¬ resp.statusCode > 299)
    (hhs : headerStep env dgst resp = .ok "")
    (hget : env.getResult p h = .ok resp2)
    (hct : getManifestMediaType resp2 = MediaTypeDockerSchema1Manifest) :
    resolveGo env ref ((p, h) :: rest) dgst cur = .error .schema1NotSupported ∧
    containsSubstr (errMessage .schema1NotSupported) "please rebuild the image" = true := by
  have hcore : attemptCore env ref p h dgst = (.term .schema1NotSupported, true) := by
    rw [attemptCore_head_ok env ref p h dgst resp hhead hst, hhs]
    simp [hget, hct]
  refine ⟨?_, by decide⟩
  rw [resolveGo_cons, hcore]

/-- The GET response of a registry that serves schema 1 manifests as
`text/plain`. -/
def respG8 : Response :=
  { statusCode := 200, contentLength := -1,
    contentType := "text/plain; charset=utf-8",
    dockerContentDigest := "", body := [1, 2, 3] }

/-- An environment in which HEAD succeeds without a digest header and
the GET yields a schema 1 manifest. -/
def envC8 : ResolveEnv :=
  { headResult := fun _ _ => .ok { respH7 with dockerContentDigest := "" },
    getResult := fun _ _ => .ok respG8,
    validateDigest := fun _ => true,
    digestOf := fun _ => "sha256:bbb" }

set_option maxRecDepth 8000 in
/-- C8 witness: a schema 1 GET response terminates the loop even though
another (path, host) pair remains. -/
theorem resolve_schema1_terminal_witness :
    resolveGo envC8 "example.com/app:latest" ((0, 0) :: [(0, 1)]) "" none
      = .error .schema1NotSupported ∧
    containsSubstr (errMessage .schema1NotSupported) "please rebuild the image" = true :=
  resolve_schema1_terminal envC8 "example.com/app:latest" 0 0 [(0, 1)] "" none
    { respH7 with dockerContentDigest := "" } respG8 rfl (by decide) rfl rfl rfl

/-! ## C1 — error priority ranking -/

/-- A run of the loop in which every attempt fails with a
record-and-continue outcome; returns the list of (priority, error)
candidates in attempt order, threading the loop-carried digest exactly
as `resolveGo` does. -/
def allFail (env : ResolveEnv) (ref : String) :
    List (Nat × Nat) → String → Option (List (Nat × ResolveErr))
  | [], _ => some []
  | (p, h) :: rest, dgst =>
    match attemptCore env ref p h dgst with
    | (.failCont pr e, _) => (allFail env ref rest dgst).map (List.cons (pr, e))
    | (.proceed d _ size, _) =>
      if size > MaxManifestSize then
        (allFail env ref rest d).map (List.cons (4, .sizeExceeded size ref))
      else none
    | (.term _, _) => none

/-- Folding the recorded-error update over a candidate list. -/
def foldRecs (cur : Option (Nat × ResolveErr)) (recs : List (Nat × ResolveErr)) :
    Option (Nat × ResolveErr) :=
  recs.foldl (fun c pe => recordErr c pe.1 pe.2) cur

/-- When every attempt fails, the loop returns the folded recorded
error. -/
theorem allFail_resolveGo (env : ResolveEnv) (ref : String) :
    ∀ (l : List (Nat × Nat)) (dgst : String) (recs : List (Nat × ResolveErr))
      (cur : Option (Nat × ResolveErr)),
      allFail env ref l dgst = some recs →
      resolveGo env ref l dgst cur = .error (errOf ref (foldRecs cur recs)) := by
  intro l
  induction l with
  | nil =>
    intro dgst recs cur hfail
    simp only [allFail, Option.some.injEq] at hfail
    subst hfail
    rw [resolveGo_nil]
    rfl
  | cons ph rest ih =>
    intro dgst recs cur hfail
    obtain ⟨p, h⟩ := ph
    rw [resolveGo_cons]
    unfold allFail at hfail
    split at hfail
    · rename_i pr e u0 heq
      simp only [heq]
      rcases Option.map_eq_some'.mp hfail with ⟨recs', ha, hrecs⟩
      subst hrecs
      exact ih dgst recs' (recordErr cur pr e) ha
    · rename_i d0 ct0 size0 u0 heq
      simp only [heq]
      split at hfail <;> rename_i hsz
      · rcases Option.map_eq_some'.mp hfail with ⟨recs', ha, hrecs⟩
        subst hrecs
        rw [if_pos hsz]
        exact ih d0 recs' (recordErr cur 4 (.sizeExceeded size0 ref)) ha
      · simp at hfail
    · simp at hfail

/-- Recording never erases a previously recorded error. -/
theorem recordErr_isSome (cur : Option (Nat × ResolveErr)) (pr : Nat) (e : ResolveErr) :
    (recordErr cur pr e).isSome := by
  cases cur with
  | none => rfl
  | some pe =>
    obtain ⟨p, e0⟩ := pe
    by_cases hlt : p < pr
    · simp [recordErr, hlt]
    · simp [recordErr, hlt]

/-- Folding over a recorded error keeps one recorded. -/
theorem foldRecs_isSome_of_isSome :
    ∀ (recs : List (Nat × ResolveErr)) (cur : Option (Nat × ResolveErr)),
      cur.isSome → (foldRecs cur recs).isSome := by
  intro recs
  induction recs with
  | nil => intro cur hcur; exact hcur
  | cons qf rest ih =>
    intro cur hcur
    exact ih (recordErr cur qf.1 qf.2) (recordErr_isSome cur qf.1 qf.2)

/-- With at least one candidate the fold records an error. -/
theorem foldRecs_isSome (recs : List (Nat × ResolveErr)) (cur : Option (Nat × ResolveErr))
    (hne : recs ≠ []) : (foldRecs cur recs).isSome := by
  cases recs with
  | nil => exact absurd rfl hne
  | cons qf rest =>
    exact foldRecs_isSome_of_isSome rest (recordErr cur qf.1 qf.2)
      (recordErr_isSome cur qf.1 qf.2)

/-- The recorded priority of an update is the maximum of old and new. -/
theorem priOf_recordErr (cur : Option (Nat × ResolveErr)) (pr : Nat) (e : ResolveErr) :
    priOf (recordErr cur pr e) = max (priOf cur) pr := by
  cases cur with
  | none => simp [recordErr, priOf]
  | some pe =>
    obtain ⟨p, e0⟩ := pe
    by_cases hlt : p < pr
    · simp [recordErr, priOf, hlt]
      omega
    · simp [recordErr, priOf, hlt]
      omega

/-- The folded error comes from the candidate list (or was already
recorded). -/
theorem foldRecs_mem :
    ∀ (recs : List (Nat × ResolveErr)) (cur : Option (Nat × ResolveErr))
      (p : Nat) (e : ResolveErr),
      foldRecs cur recs = some (p, e) → (p, e) ∈ recs ∨ cur = some (p, e) := by
  intro recs
  induction recs with
  | nil => intro cur p e hf; exact Or.inr hf
  | cons qf rest ih =>
    intro cur p e hf
    rcases ih (recordErr cur qf.1 qf.2) p e hf with hm | he
    · exact Or.inl (List.mem_cons_of_mem _ hm)
    · obtain ⟨q, f⟩ := qf
      cases cur with
      | none =>
        simp only [recordErr, Option.some.injEq] at he
        left
        rw [← he]
        exact List.mem_cons_self _ _
      | some pe0 =>
        obtain ⟨p0, e0⟩ := pe0
        simp only [recordErr] at he
        split at he
        · simp only [Option.some.injEq] at he
          left
          rw [← he]
          exact List.mem_cons_self _ _
        · exact Or.inr he

/-- The folded priority dominates the starting priority. -/
theorem foldRecs_priOf_le :
    ∀ (recs : List (Nat × ResolveErr)) (cur : Option (Nat × ResolveErr)),
      priOf cur ≤ priOf (foldRecs cur recs) := by
  intro recs
  induction recs with
  | nil => intro cur; exact Nat.le_refl _
  | cons qf rest ih =>
    intro cur
    have h1 : priOf cur ≤ priOf (recordErr cur qf.1 qf.2) := by
      rw [priOf_recordErr]
      exact Nat.le_max_left _ _
    exact Nat.le_trans h1 (ih (recordErr cur qf.1 qf.2))

/-- Every candidate priority is dominated by the folded priority. -/
theorem foldRecs_mem_le :
    ∀ (recs : List (Nat × ResolveErr)) (cur : Option (Nat × ResolveErr))
      (q : Nat) (f : ResolveErr),
      (q, f) ∈ recs → q ≤ priOf (foldRecs cur recs) := by
  intro recs
  induction recs with
  | nil => intro cur q f hm; simp at hm
  | cons qf rest ih =>
    intro cur q f hm
    rcases List.mem_cons.mp hm with hh | ht
    · have h1 : q ≤ priOf (recordErr cur qf.1 qf.2) := by
        rw [priOf_recordErr]
        rw [← hh]
        exact Nat.le_max_right _ _
      exact Nat.le_trans h1 (foldRecs_priOf_le rest (recordErr cur qf.1 qf.2))
    · exact ih (recordErr cur qf.1 qf.2) q f ht

/-- C1: when every attempted (path, host) pair fails with a
record-and-continue failure (request-level error: priority 1, 404:
priority 2, other status above 399: priority 3, size ceiling:
priority 4), Resolve returns a recorded error of the highest recorded
priority (the first recorded among equals) — in particular, with one
host failing at transport level and another answering 500, the 500 is
returned. Terminal conditions (3xx, GET failure, invalid header,
schema 1) break out of the loop and are excluded by the hypothesis. -/
theorem resolve_error_priority (env : ResolveEnv) (r : RefSpec)
    (hostsList : List RegistryHost) (recs : List (Nat × ResolveErr))
    (hobj : ¬ r.object = "")
    (hdg : specDigest r.object = "" ∨ env.validateDigest (specDigest r.object) = true)
    (hhosts : ¬ (resolveHosts r hostsList).length = 0)
    (hfail : allFail env r.ref
        (attemptList (resolvePaths r) (resolveHosts r hostsList).length)
        (specDigest r.object) = some recs)
    (hne : recs ≠ []) :
    ∃ prio e, resolve env r hostsList = .error e ∧ (prio, e) ∈ recs ∧
      ∀ q f, (q, f) ∈ recs → q ≤ prio := by
  have hdg' : ¬ (specDigest r.object ≠ "" ∧
      env.validateDigest (specDigest r.object) = false) := by
    rintro ⟨h1, h2⟩
    rcases hdg with hv | hv
    · exact h1 hv
    · rw [hv] at h2
      simp at h2
  have hres : resolve env r hostsList =
      resolveGo env r.ref
        (attemptList (resolvePaths r) (resolveHosts r hostsList).length)
        (specDigest r.object) none := by
    unfold resolve
    rw [if_neg hobj, if_neg hdg', if_neg hhosts]
  rw [hres, allFail_resolveGo env r.ref _ _ recs none hfail]
  have hsome := foldRecs_isSome recs none hne
  rcases hfold : foldRecs none recs with - | pe
  · rw [hfold] at hsome
    simp at hsome
  · obtain ⟨prio, e⟩ := pe
    refine ⟨prio, e, ?_, ?_, ?_⟩
    · rfl
    · rcases foldRecs_mem recs none prio e hfold with hm | hc
      · exact hm
      · simp at hc
    · intro q f hm
      have hle := foldRecs_mem_le recs none q f hm
      rw [hfold] at hle
      exact hle

/-- A HEAD answering 500. -/
def resp500 : Response := { respOk with statusCode := 500 }

/-- Host 0 fails at transport level, host 1 answers 500. -/
def envC1 : ResolveEnv :=
  { envOk with headResult := fun _ h => if h = 0 then .error () else .ok resp500 }

/-- The recorded candidates of the `envC1` run: a priority-1 transport
error then a priority-3 unexpected 500. -/
def recsC1 : List (Nat × ResolveErr) :=
  [(1, .requestError 0 0), (3, .unexpectedStatus 500)]

set_option maxRecDepth 8000 in
/-- C1 witness: for the transport+500 run, the returned error is the
(priority-3) 500, dominating the transport error. -/
theorem resolve_error_priority_witness :
    ∃ prio e, resolve envC1 refTag [exampleHost, exampleHost] = .error e ∧
      (prio, e) ∈ recsC1 ∧ ∀ q f, (q, f) ∈ recsC1 → q ≤ prio :=
  resolve_error_priority envC1 refTag [exampleHost, exampleHost] recsC1
    (by decide) (Or.inl rfl) (by decide) rfl (by decide)
